import Mathlib

/-!
Shallow embedding of the go-centrifuge job orchestration subsystem:
the jobsv1 Manager (src/jobs/jobsv1/manager.go) and the generic task
queue Server (src/unnamed/part_000, package queue).

Effectful Go code is embedded as pure functions over oracle inputs:
each repository call (Get/Save), the select branch taken by the
finalize goroutine, and the notification sender outcome are passed in
as explicit arguments, and every observable effect (the persisted
record, the value sent on the done channel, the notification message,
the log-only flags) is returned in a structured output.
-/

/-- Error values are represented by their message text. -/
abbrev ErrMsg := String

/-- identity.DID, the owning account identifier (opaque). -/
abbrev DID := String

/-- jobs.JobID. Modelled from the spec: an opaque identifier unique within an
account namespace, with a distinguished zero value. We use Nat with 0 as the
zero (nil) value. -/
abbrev JobID := Nat

/-- jobs.NilJobID, the zero value of JobID. -/
def NilJobID : JobID := 0

/-- jobs.JobIDEqual. -/
def JobIDEqual (a b : JobID) : Bool := a = b

/-- Rendering of a JobID as a string (JobID.String in Go). -/
def jobIDString (id : JobID) : String := toString id

/-- The location component of a Go time.Time value: either UTC or some
other (local) zone. -/
inductive TimeLoc
  | utc
  | localZone
deriving DecidableEq, Repr

/-- A Go time.Time value: an absolute instant plus a display location.
Conversion to UTC keeps the instant and changes only the location. -/
structure GoTime where
  instant : Int
  loc : TimeLoc
deriving DecidableEq, Repr

/-- time.Time.UTC(): same instant, UTC location. -/
def GoTime.toUTC (t : GoTime) : GoTime := { t with loc := .utc }

/-- time.Time.Add(d): shift the instant, keep the location. -/
def GoTime.add (t : GoTime) (d : Int) : GoTime := { t with instant := t.instant + d }

/-- jobs.Status. Modelled from the spec: enum Pending, Success, Failed;
Pending is initial, Success and Failed terminal. -/
inductive Status
  | pending
  | success
  | failed
deriving DecidableEq, Repr

/-- Modelled from the spec: the string form of a Status, as used by
StatusResponse and the notification message (scenario A fixes the Success
form to "success"). -/
def Status.toGoString : Status → String
  | .pending => "pending"
  | .success => "success"
  | .failed => "failed"

/-- A Job log entry. Modelled from the spec: Logs is a time-ordered sequence
of \x7bTaskName, Message, CreatedAt\x7d records. -/
structure JobLog where
  taskName : String
  message : String
  createdAt : GoTime
deriving DecidableEq, Repr

/-- jobs.NewLog. Modelled from the spec: builds a log entry from a task name
and message, stamped with the current time. -/
def NewLog (taskName message : String) (now : GoTime) : JobLog :=
  { taskName := taskName, message := message, createdAt := now }

/-- jobs.JobValue: a keyed opaque value blob (key plus byte slice). -/
structure JobValue where
  key : String
  value : List Nat
deriving DecidableEq, Repr

/-- Go map write m[k] = v on an association list: replace the binding for k
if present, else append it. -/
def setAssoc {α : Type} : List (String × α) → String → α → List (String × α)
  | [], k, v => [(k, v)]
  | (k0, v0) :: rest, k, v =>
    if k0 = k then (k, v) :: rest else (k0, v0) :: setAssoc rest k v

/-- Go map read m[k] on an association list. -/
def getAssoc {α : Type} : List (String × α) → String → Option α
  | [], _ => none
  | (k0, v0) :: rest, k => if k0 = k then some v0 else getAssoc rest k

/-- jobs.Job. Modelled from the spec data model: one record per
(account, job id) with status, per-task statuses, free-form values,
append-only logs and a creation timestamp. -/
structure Job where
  id : JobID
  did : DID
  description : String
  status : Status
  taskStatus : List (String × Status)
  values : List (String × JobValue)
  logs : List JobLog
  createdAt : GoTime
deriving DecidableEq, Repr

/-- jobs.NewJob. Modelled from the spec: a fresh Pending record with a newly
generated id, the given owner and description, empty task statuses, values
and logs, stamped with the creation time. The generated id is passed in
explicitly (id generation is random in Go). -/
def NewJob (accountID : DID) (desc : String) (freshID : JobID) (now : GoTime) : Job :=
  { id := freshID
    did := accountID
    description := desc
    status := .pending
    taskStatus := []
    values := []
    logs := []
    createdAt := now }

/-- manager.UpdateJobWithValue, state transformation on the loaded record:
tx.Values[key] = JobValue\x7bkey, value\x7d. -/
def UpdateJobWithValueJob (tx : Job) (key : String) (value : List Nat) : Job :=
  { tx with values := setAssoc tx.values key { key := key, value := value } }

/-- manager.UpdateTaskStatus, state transformation on the loaded record:
tx.TaskStatus[taskName] = status; tx.Logs = append(tx.Logs, NewLog(taskName, message)). -/
def UpdateTaskStatusJob (tx : Job) (status : Status) (taskName message : String)
    (now : GoTime) : Job :=
  { tx with
    taskStatus := setAssoc tx.taskStatus taskName status
    logs := tx.logs ++ [NewLog taskName message now] }

/-- N sequential UpdateTaskStatus calls applied to one record, each with its
own (status, taskName, message, now). -/
def updateTaskStatusSeq (tx : Job) : List (Status × String × String × GoTime) → Job
  | [] => tx
  | (st, n, m, now) :: rest => updateTaskStatusSeq (UpdateTaskStatusJob tx st n m now) rest

/-- jobs.StatusResponse as built by manager.GetJobStatus. -/
structure StatusResponse where
  jobID : String
  status : String
  message : String
  lastUpdated : GoTime
deriving DecidableEq, Repr

/-- manager.GetJobStatus on a loaded record: Message and LastUpdated come
from the most recent log entry, or the empty string and CreatedAt in UTC
when there are no logs. -/
def GetJobStatusJob (job : Job) : StatusResponse :=
  match job.logs.getLast? with
  | some l =>
    { jobID := jobIDString job.id
      status := job.status.toGoString
      message := l.message
      lastUpdated := l.createdAt.toUTC }
  | none =>
    { jobID := jobIDString job.id
      status := job.status.toGoString
      message := ""
      lastUpdated := job.createdAt.toUTC }

/-- manager.GetJobStatus including the repository read, whose outcome is the
oracle argument. -/
def GetJobStatus (get : Except ErrMsg Job) : Except ErrMsg StatusResponse :=
  match get with
  | .error e => .error e
  | .ok job => .ok (GetJobStatusJob job)

/-- One iteration of the WaitForJob polling loop after a successful status
read: switch on the status string; Failed returns an error embedding the
message, Success returns nil, anything else keeps polling (none). -/
def waitStep (resp : StatusResponse) : Option (Option ErrMsg) :=
  if resp.status = Status.failed.toGoString then
    some (some ("job failed: " ++ resp.message))
  else if resp.status = Status.success.toGoString then
    some none
  else
    none

/-- manager.WaitForJob over a finite trace of poll outcomes (the successive
results of GetJobStatus). Returns some outcome once an iteration returns,
none if every polled status keeps the loop going (the loop would still be
sleeping and polling). -/
def WaitForJob : List (Except ErrMsg StatusResponse) → Option (Option ErrMsg)
  | [] => none
  | r :: rest =>
    match r with
    | .error e => some (some e)
    | .ok resp =>
      match waitStep resp with
      | some out => some out
      | none => WaitForJob rest

/-- A buffered Go channel of error values (here Option ErrMsg: none is a nil
error), with a fixed capacity and current buffer. -/
structure Chan where
  cap : Nat
  buf : List (Option ErrMsg)
deriving DecidableEq, Repr

/-- The non-blocking send at the end of the finalize goroutine:
select case done <- doneErr, with a default branch that only logs
"job done channel capacity breach". Returns the channel after the send and
whether the breach was logged. Total: it never blocks and never panics. -/
def Chan.trySend (c : Chan) (v : Option ErrMsg) : Chan × Bool :=
  if c.buf.length < c.cap then ({ c with buf := c.buf ++ [v] }, false)
  else (c, true)

/-- errors.AppendError. Modelled from the spec: combines an optional earlier
error with a later one into a single error listing both. -/
def appendErr : Option ErrMsg → ErrMsg → ErrMsg
  | some e1, e2 => e1 ++ "; " ++ e2
  | none, e2 => e2

/-- The managerLogPrefix constant. -/
def managerLogTag : String := "manager"

/-- The branch taken by the select in the finalize goroutine: either the
work function reported on the private error channel first (carrying its
reported error, nil = success), or the context was cancelled first. -/
inductive FinBranch
  | workDone (e : Option ErrMsg)
  | ctxCancelled
deriving DecidableEq, Repr

/-- The observable outcome of the select body of the finalize goroutine. -/
structure FinalizeOut where
  /-- The record handed to saveJob, none when the reload failed and nothing
  was persisted. -/
  persisted : Option Job
  /-- The value later sent (non-blocking) on the done channel; none is a nil
  error. -/
  doneErr : Option ErrMsg
  /-- The local mJob variable after the select: the reloaded (and possibly
  updated) record, none when the reload failed. -/
  mJob : Option Job
  /-- How many receives the goroutine performed on the private work error
  channel in this branch. -/
  errChanReceives : Nat
deriving DecidableEq, Repr

/-- The select body of the goroutine spawned by manager.ExecuteWithinJob
(manager.go lines 72-117). Arguments job, existingJobID, accountID, desc
are the enclosing call state; branch is which select case fired; reload is
the outcome of the repo.Get inside the branch; saveRes is the outcome of
the saveJob inside the branch (none = saved ok). -/
def finalizeSelect (job : Job) (existingJobID : JobID) (desc : String)
    (now : GoTime) (branch : FinBranch) (reload : Except ErrMsg Job)
    (saveRes : Option ErrMsg) : FinalizeOut :=
  match branch with
  | .workDone e =>
    match reload with
    | .error err =>
      { persisted := none
        doneErr := some (appendErr e err)
        mJob := none
        errChanReceives := 1 }
    | .ok tempJob0 =>
      let step : Job × Option ErrMsg :=
        if e = none ∧ JobIDEqual existingJobID NilJobID = true then
          ({ tempJob0 with status := .success }, none)
        else
          match e with
          | some em =>
            let action := managerLogTag ++ "[" ++ desc ++ "]"
            ({ tempJob0 with
                logs := tempJob0.logs ++ [NewLog action em now]
                status := .failed },
             some (action ++ " " ++ em))
          | none => (tempJob0, none)
      let doneErr :=
        match saveRes with
        | some es => some (appendErr e es)
        | none => step.2
      { persisted := some step.1
        doneErr := doneErr
        mJob := some step.1
        errChanReceives := 1 }
  | .ctxCancelled =>
    let msg := "Job " ++ jobIDString job.id ++ " for account " ++ job.did ++
      " with description \"" ++ job.description ++ "\" is stopped because of context close"
    match reload with
    | .error err =>
      { persisted := none
        doneErr := some err
        mJob := none
        errChanReceives := 0 }
    | .ok tempJob0 =>
      let tempJob := { tempJob0 with logs := tempJob0.logs ++ [NewLog "context closed" msg now] }
      let doneErr :=
        match saveRes with
        | some es => some es
        | none => none
      { persisted := some tempJob
        doneErr := doneErr
        mJob := some tempJob
        errChanReceives := 0 }

/-- notification.EventType values used by the Manager. -/
inductive EventType
  | jobCompleted
deriving DecidableEq, Repr

/-- notification.Message. Modelled from the spec schema:
\x7bEventType, AccountID, Recorded (UTC), DocumentType, DocumentID, Status, Message\x7d. -/
structure NotificationMsg where
  eventType : EventType
  accountID : String
  recorded : GoTime
  documentType : String
  documentID : String
  status : String
  message : String
deriving DecidableEq, Repr

/-- jobs.JobDataTypeURL. Modelled from the spec: an opaque document type
tag. -/
def JobDataTypeURL : String := "job_data"

/-- The notification message built by the finalize goroutine for a record
mJob: event type JobCompleted, account id, current UTC time, job id, final
status string, and the message of the last log entry when logs exist. -/
def buildNotification (mJob : Job) (accountID : DID) (now : GoTime) : NotificationMsg :=
  let base : NotificationMsg :=
    { eventType := .jobCompleted
      accountID := accountID
      recorded := now.toUTC
      documentType := JobDataTypeURL
      documentID := jobIDString mJob.id
      status := mJob.status.toGoString
      message := "" }
  match mJob.logs.getLast? with
  | some l => { base with message := l.message }
  | none => base

/-- The full observable outcome of the goroutine spawned by
manager.ExecuteWithinJob, after the non-blocking done send and the
conditional notification. -/
structure GoroutineOut where
  /-- The fresh capacity-1 done channel after the goroutine finished. -/
  chanAfter : Chan
  /-- Whether the "job done channel capacity breach" log fired. -/
  breachLogged : Bool
  /-- The record handed to saveJob in the select branch, if any. -/
  persisted : Option Job
  /-- The notification message sent, if any. -/
  notification : Option NotificationMsg
  /-- Whether a notification sender error was logged. -/
  notifyErrLogged : Bool
  /-- Receives performed on the private work error channel. -/
  errChanReceives : Nat
deriving DecidableEq, Repr

/-- The goroutine of manager.ExecuteWithinJob (manager.go lines 68-146):
run the select body, perform the non-blocking send of doneErr on the fresh
capacity-1 done channel, and if mJob is set and existingJobID is the zero
value, send the notification; a sender error (notifyRes = some) is only
logged. -/
def finalizeGoroutine (job : Job) (existingJobID : JobID) (accountID : DID)
    (desc : String) (now : GoTime) (branch : FinBranch)
    (reload : Except ErrMsg Job) (saveRes : Option ErrMsg)
    (notifyRes : Option ErrMsg) : GoroutineOut :=
  let f := finalizeSelect job existingJobID desc now branch reload saveRes
  let sent := Chan.trySend { cap := 1, buf := [] } f.doneErr
  let notif : Option NotificationMsg :=
    match f.mJob with
    | some m =>
      if JobIDEqual existingJobID NilJobID then some (buildNotification m accountID now)
      else none
    | none => none
  { chanAfter := sent.1
    breachLogged := sent.2
    persisted := f.persisted
    notification := notif
    notifyErrLogged := notif.isSome && notifyRes.isSome
    errChanReceives := f.errChanReceives }

/-- The synchronous part of manager.ExecuteWithinJob as seen by its caller. -/
structure ExecOut where
  /-- First return value: the job id. -/
  jobID : JobID
  /-- Second return value: the done channel; none is a nil channel. -/
  doneChan : Option Chan
  /-- Third return value: the synchronous error. -/
  retErr : Option ErrMsg
  /-- The record the work function and finalize goroutine were spawned
  with, none when nothing was spawned. -/
  spawnedJob : Option Job
deriving DecidableEq, Repr

/-- The synchronous prefix of manager.ExecuteWithinJob (manager.go lines
57-67 and 147): look up existingJobID (outcome getRes); on failure create a
new record and save it synchronously (outcome saveNew), returning
(NilJobID, nil, err) when that save fails; otherwise allocate the
capacity-1 done channel, spawn the goroutines and return (job.ID, done, nil). -/
def ExecuteWithinJobSync (getRes : Except ErrMsg Job) (accountID : DID)
    (desc : String) (freshID : JobID) (now : GoTime)
    (saveNew : Option ErrMsg) : ExecOut :=
  match getRes with
  | .ok job =>
    { jobID := job.id
      doneChan := some { cap := 1, buf := [] }
      retErr := none
      spawnedJob := some job }
  | .error _ =>
    let job := NewJob accountID desc freshID now
    match saveNew with
    | some err =>
      { jobID := NilJobID, doneChan := none, retErr := some err, spawnedJob := none }
    | none =>
      { jobID := job.id
        doneChan := some { cap := 1, buf := [] }
        retErr := none
        spawnedJob := some job }

/-- The queue Server state relevant to EnqueueJob: whether Start has
constructed the broker (qs.queue is non-nil) and the registered task type
names. -/
structure QueueServerState where
  queueInitialised : Bool
  taskTypes : List String
deriving DecidableEq, Repr

/-- Server.RegisterTaskType: append the task type under the write lock. -/
def RegisterTaskType (qs : QueueServerState) (name : String) : QueueServerState :=
  { qs with taskTypes := qs.taskTypes ++ [name] }

/-- The broker construction step of Server.Start: the queue field becomes
non-nil. -/
def StartConstructBroker (qs : QueueServerState) : QueueServerState :=
  { qs with queueInitialised := true }

/-- gocelery.TaskSettings as set by EnqueueJob: the validity deadline. -/
structure TaskSettings where
  validUntil : GoTime
deriving DecidableEq, Repr

/-- A keyword parameter value in a task submission (opaque). -/
inductive ParamVal
  | str (s : String)
  | num (n : Int)
deriving DecidableEq, Repr

/-- The gocelery.Task submission handed to the broker by enqueueJob. -/
structure CelTask where
  name : String
  kwargs : List (String × ParamVal)
  settings : TaskSettings
deriving DecidableEq, Repr

/-- Server.enqueueJob: fails when qs.queue is nil, otherwise hands the
submission to the broker. -/
def enqueueJobInner (qs : QueueServerState) (name : String)
    (params : List (String × ParamVal)) (settings : TaskSettings) :
    Except ErrMsg CelTask :=
  if qs.queueInitialised then
    .ok { name := name, kwargs := params, settings := settings }
  else
    .error "queue hasn\x27t been initialised"

/-- Server.EnqueueJob: under the read lock, build settings with
ValidUntil = time.Now().Add(config.GetTaskValidDuration()) and call
enqueueJob. validDur is the configured task validity duration. -/
def EnqueueJob (qs : QueueServerState) (now : GoTime) (validDur : Int)
    (taskName : String) (params : List (String × ParamVal)) :
    Except ErrMsg CelTask :=
  let settings : TaskSettings := { validUntil := now.add validDur }
  enqueueJobInner qs taskName params settings

/-! Helper lemmas. -/

/-- Reading back the key just written by a Go map write. -/
theorem getAssoc_setAssoc_self {α : Type} (m : List (String × α)) (k : String) (v : α) :
    getAssoc (setAssoc m k v) k = some v := by
  induction m with
  | nil => simp [setAssoc, getAssoc]
  | cons p rest ih =>
    by_cases h : p.1 = k
    · simp [setAssoc, getAssoc, h]
    · simp [setAssoc, getAssoc, h, ih]

/-- Sequential UpdateTaskStatus calls append exactly their log entries, in
call order. -/
theorem updateTaskStatusSeq_logs (calls : List (Status × String × String × GoTime)) :
    ∀ tx : Job, (updateTaskStatusSeq tx calls).logs =
      tx.logs ++ calls.map (fun c => NewLog c.2.1 c.2.2.1 c.2.2.2) := by
  induction calls with
  | nil => intro tx; simp [updateTaskStatusSeq]
  | cons c rest ih =>
    intro tx
    obtain ⟨st, n, m, now⟩ := c
    simp [updateTaskStatusSeq, ih, UpdateTaskStatusJob]

/-- C1: for a call to ExecuteWithinJob whose work function reports nil on
the error channel, the finalize goroutine reloads the job snapshot (here
tempJob, the outcome of the repo Get) and persists it with Status set to
Success exactly when this call created a new job (existingJobID was the
zero value); when the job was resumed (existingJobID non-zero) the snapshot
is persisted with Status untouched. -/
theorem executeWithinJob_nilError_status (job tempJob : Job) (existingJobID : JobID)
    (desc : String) (now : GoTime) (saveRes : Option ErrMsg) :
    (finalizeSelect job existingJobID desc now (.workDone none) (.ok tempJob) saveRes).persisted =
      some (if JobIDEqual existingJobID NilJobID then
              { tempJob with status := Status.success }
            else tempJob) := by
  by_cases h : JobIDEqual existingJobID NilJobID <;>
    simp [finalizeSelect, h]

/-- C2: for a call to ExecuteWithinJob whose work function reports a
non-nil error em and whose reload and save succeed, the persisted snapshot
gains exactly one appended log entry whose task name is the tag
manager[desc] and whose message is the error text, Status is set to Failed,
and the done channel value is the wrapped error made of the tag and the
error text. -/
theorem executeWithinJob_error_failed (job tempJob : Job) (existingJobID : JobID)
    (desc em : String) (now : GoTime) :
    (finalizeSelect job existingJobID desc now (.workDone (some em)) (.ok tempJob) none).persisted =
      some { tempJob with
        logs := tempJob.logs ++ [NewLog (managerLogTag ++ "[" ++ desc ++ "]") em now]
        status := Status.failed } ∧
    (finalizeSelect job existingJobID desc now (.workDone (some em)) (.ok tempJob) none).doneErr =
      some (managerLogTag ++ "[" ++ desc ++ "]" ++ " " ++ em) := by
  constructor <;> simp [finalizeSelect]

/-- C3: for a call to ExecuteWithinJob whose context is cancelled before
the work function reports, the finalize goroutine reloads the snapshot
(tempJob), persists it with exactly one appended log entry noting the
cancellation and with Status unchanged, and performs no receive on the
private work error channel (so it never blocks on the still running work
function, whose later signal it drops). -/
theorem executeWithinJob_cancelled (job tempJob : Job) (existingJobID : JobID)
    (desc : String) (now : GoTime) (saveRes : Option ErrMsg) :
    (finalizeSelect job existingJobID desc now .ctxCancelled (.ok tempJob) saveRes).persisted =
      some { tempJob with logs := tempJob.logs ++
        [NewLog "context closed"
          ("Job " ++ jobIDString job.id ++ " for account " ++ job.did ++
           " with description \"" ++ job.description ++
           "\" is stopped because of context close") now] } ∧
    ({ tempJob with logs := tempJob.logs ++
        [NewLog "context closed"
          ("Job " ++ jobIDString job.id ++ " for account " ++ job.did ++
           " with description \"" ++ job.description ++
           "\" is stopped because of context close") now] : Job }).status = tempJob.status ∧
    (finalizeSelect job existingJobID desc now .ctxCancelled (.ok tempJob) saveRes).errChanReceives = 0 := by
  refine ⟨?_, rfl, ?_⟩ <;> simp [finalizeSelect]

/-- C7: for every stored job record, GetJobStatus returns without error a
response whose Message and LastUpdated are the message and timestamp of the
most recent log entry, or the empty string and the creation time in UTC
when the job has no logs. -/
theorem getJobStatus_spec (job : Job) :
    GetJobStatus (.ok job) = .ok (GetJobStatusJob job) ∧
    (job.logs = [] → (GetJobStatusJob job).message = "" ∧
      (GetJobStatusJob job).lastUpdated = job.createdAt.toUTC) ∧
    (∀ l, job.logs.getLast? = some l → (GetJobStatusJob job).message = l.message ∧
      (GetJobStatusJob job).lastUpdated = l.createdAt.toUTC) := by
  refine ⟨rfl, ?_, ?_⟩
  · intro h
    simp [GetJobStatusJob, h]
  · intro l h
    simp [GetJobStatusJob, h]

/-- C8: EnqueueJob called before Start has constructed the broker fails
fast (it is a total function, so it neither blocks nor panics) with the
queue-not-initialised error; once the broker exists the submission handed
to the broker has ValidUntil equal to the current time plus the configured
task validity duration. -/
theorem enqueueJob_spec (qs : QueueServerState) (now : GoTime) (validDur : Int)
    (taskName : String) (params : List (String × ParamVal)) :
    (qs.queueInitialised = false →
      EnqueueJob qs now validDur taskName params = .error "queue hasn\x27t been initialised") ∧
    (qs.queueInitialised = true →
      EnqueueJob qs now validDur taskName params =
        .ok { name := taskName, kwargs := params,
              settings := { validUntil := now.add validDur } } ∧
        (now.add validDur).instant = now.instant + validDur) := by
  constructor <;> intro h <;> simp [EnqueueJob, enqueueJobInner, h, GoTime.add]

/-- C10: when ExecuteWithinJob finds no existing record and the synchronous
save of the newly created Pending job fails, it returns the nil job id, a
nil done channel and the persistence error, and spawns neither the work
function nor the supervising goroutine. -/
theorem executeWithinJob_saveFail (getErr saveErr : ErrMsg) (accountID : DID)
    (desc : String) (freshID : JobID) (now : GoTime) :
    ExecuteWithinJobSync (.error getErr) accountID desc freshID now (some saveErr) =
      { jobID := NilJobID, doneChan := none, retErr := some saveErr, spawnedJob := none } := rfl

/-- C4: for every call, the done channel is created with capacity 1, the
finalize goroutine performs a single non-blocking send on it (so it holds
exactly one value and the breach log never fires on the first send), the
synchronous return hands out either a nil channel or the fresh capacity-1
channel, and an attempted write to an already full channel is detected and
logged while leaving the channel unchanged (trySend is total: it neither
panics nor blocks). -/
theorem doneChannel_at_most_one (job : Job) (existingJobID : JobID) (accountID : DID)
    (desc : String) (now : GoTime) (branch : FinBranch) (reload : Except ErrMsg Job)
    (saveRes notifyRes : Option ErrMsg) :
    (finalizeGoroutine job existingJobID accountID desc now branch reload saveRes notifyRes).chanAfter.cap = 1 ∧
    (finalizeGoroutine job existingJobID accountID desc now branch reload saveRes notifyRes).chanAfter.buf =
      [(finalizeSelect job existingJobID desc now branch reload saveRes).doneErr] ∧
    (finalizeGoroutine job existingJobID accountID desc now branch reload saveRes notifyRes).breachLogged = false ∧
    (∀ getRes acc2 desc2 freshID now2 saveNew,
      (ExecuteWithinJobSync getRes acc2 desc2 freshID now2 saveNew).doneChan = none ∨
      (ExecuteWithinJobSync getRes acc2 desc2 freshID now2 saveNew).doneChan =
        some { cap := 1, buf := [] }) ∧
    (∀ c : Chan, ∀ v, c.cap ≤ c.buf.length → Chan.trySend c v = (c, true)) := by
  refine ⟨?_, ?_, ?_, ?_, ?_⟩
  · simp [finalizeGoroutine, Chan.trySend]
  · simp [finalizeGoroutine, Chan.trySend]
  · simp [finalizeGoroutine, Chan.trySend]
  · intro getRes acc2 desc2 freshID now2 saveNew
    cases getRes with
    | ok j => right; rfl
    | error e =>
      cases saveNew with
      | some err => left; rfl
      | none => right; rfl
  · intro c v hfull
    simp [Chan.trySend, Nat.not_lt.mpr hfull]

/-- C5: the finalize goroutine sends a notification exactly when the select
branch produced a reloaded record (mJob set, i.e. the job was finalized)
and the call created the job (existingJobID was the zero value); the
message carries the final status string and, when the record has logs, the
message of the last log entry; and the sender outcome influences nothing
but the log flag: the done channel, the persisted record and the message
itself are identical for any two sender outcomes. -/
theorem notification_policy (job : Job) (existingJobID : JobID) (accountID : DID)
    (desc : String) (now : GoTime) (branch : FinBranch) (reload : Except ErrMsg Job)
    (saveRes nr1 nr2 : Option ErrMsg) :
    ((finalizeGoroutine job existingJobID accountID desc now branch reload saveRes nr1).notification.isSome ↔
      ((finalizeSelect job existingJobID desc now branch reload saveRes).mJob.isSome ∧
        JobIDEqual existingJobID NilJobID = true)) ∧
    (∀ m : Job, (finalizeSelect job existingJobID desc now branch reload saveRes).mJob = some m →
      JobIDEqual existingJobID NilJobID = true →
      (finalizeGoroutine job existingJobID accountID desc now branch reload saveRes nr1).notification =
        some (buildNotification m accountID now)) ∧
    (∀ m : Job, (buildNotification m accountID now).status = m.status.toGoString) ∧
    (∀ m : Job, ∀ l, m.logs.getLast? = some l →
      (buildNotification m accountID now).message = l.message) ∧
    (∀ m : Job, m.logs = [] → (buildNotification m accountID now).message = "") ∧
    ((finalizeGoroutine job existingJobID accountID desc now branch reload saveRes nr1).chanAfter =
      (finalizeGoroutine job existingJobID accountID desc now branch reload saveRes nr2).chanAfter ∧
     (finalizeGoroutine job existingJobID accountID desc now branch reload saveRes nr1).persisted =
      (finalizeGoroutine job existingJobID accountID desc now branch reload saveRes nr2).persisted ∧
     (finalizeGoroutine job existingJobID accountID desc now branch reload saveRes nr1).notification =
      (finalizeGoroutine job existingJobID accountID desc now branch reload saveRes nr2).notification) := by
  refine ⟨?_, ?_, ?_, ?_, ?_, rfl, rfl, rfl⟩
  · cases hm : (finalizeSelect job existingJobID desc now branch reload saveRes).mJob with
    | none => simp [finalizeGoroutine, hm]
    | some m =>
      by_cases h : JobIDEqual existingJobID NilJobID <;>
        simp [finalizeGoroutine, hm, h]
  · intro m hm h
    simp [finalizeGoroutine, hm, h]
  · intro m
    cases h : m.logs.getLast? <;> simp [buildNotification, h]
  · intro m l h
    simp [buildNotification, h]
  · intro m h
    simp [buildNotification, h]

/-- C9: every successful UpdateTaskStatus call sets TaskStatus[taskName] to
the given status and appends exactly one log entry (taskName, message)
before persisting; N sequential calls append exactly N entries in call
order; and no Manager operation shrinks Logs: UpdateJobWithValue leaves
them unchanged and every record persisted by the finalize goroutine after
a successful reload extends the reloaded logs. -/
theorem updateTaskStatus_spec (tx : Job) (st : Status) (n m : String) (now : GoTime)
    (key : String) (v : List Nat) (calls : List (Status × String × String × GoTime)) :
    (UpdateTaskStatusJob tx st n m now).logs = tx.logs ++ [NewLog n m now] ∧
    getAssoc (UpdateTaskStatusJob tx st n m now).taskStatus n = some st ∧
    (updateTaskStatusSeq tx calls).logs =
      tx.logs ++ calls.map (fun c => NewLog c.2.1 c.2.2.1 c.2.2.2) ∧
    (UpdateJobWithValueJob tx key v).logs = tx.logs ∧
    (∀ job existing desc now2 branch tempJob saveRes p,
      (finalizeSelect job existing desc now2 branch (.ok tempJob) saveRes).persisted = some p →
      tempJob.logs <+: p.logs) := by
  refine ⟨rfl, getAssoc_setAssoc_self _ _ _, updateTaskStatusSeq_logs calls tx, rfl, ?_⟩
  intro job existing desc now2 branch tempJob saveRes p hp
  cases branch with
  | workDone e =>
    cases e with
    | none =>
      by_cases h : JobIDEqual existing NilJobID <;>
        · simp [finalizeSelect, h] at hp
          subst hp
          exact List.prefix_rfl
    | some em =>
      simp [finalizeSelect] at hp
      subst hp
      exact List.prefix_append _ _
  | ctxCancelled =>
    simp [finalizeSelect] at hp
    subst hp
    exact List.prefix_append _ _

/-- Characterization of the WaitForJob loop over a trace of successful
reads: it returns out exactly when some poll is the first to leave the
loop and yields out. -/
theorem waitForJob_map_ok_some (trace : List StatusResponse) (out : Option ErrMsg) :
    WaitForJob (trace.map Except.ok) = some out ↔
      ∃ pre r post, trace = pre ++ r :: post ∧ (∀ x ∈ pre, waitStep x = none) ∧
        waitStep r = some out := by
  induction trace with
  | nil =>
    simp [WaitForJob]
  | cons a t ih =>
    cases ha : waitStep a with
    | some o =>
      simp only [List.map_cons, WaitForJob, ha]
      constructor
      · intro h
        refine ⟨[], a, t, rfl, by simp, ?_⟩
        rw [ha, h]
      · rintro ⟨pre, r, post, heq, hpre, hr⟩
        cases pre with
        | nil =>
          simp only [List.nil_append, List.cons.injEq] at heq
          obtain ⟨rfl, rfl⟩ := heq
          rw [ha] at hr
          exact hr
        | cons b pre2 =>
          simp only [List.cons_append, List.cons.injEq] at heq
          obtain ⟨rfl, rfl⟩ := heq
          have := hpre a (by simp)
          rw [ha] at this
          exact absurd this (by simp)
    | none =>
      simp only [List.map_cons, WaitForJob, ha]
      rw [ih]
      constructor
      · rintro ⟨pre, r, post, heq, hpre, hr⟩
        refine ⟨a :: pre, r, post, by rw [heq, List.cons_append], ?_, hr⟩
        intro x hx
        rcases List.mem_cons.mp hx with hx | hx
        · rw [hx]; exact ha
        · exact hpre x hx
      · rintro ⟨pre, r, post, heq, hpre, hr⟩
        cases pre with
        | nil =>
          simp only [List.nil_append, List.cons.injEq] at heq
          obtain ⟨rfl, rfl⟩ := heq
          rw [ha] at hr
          exact absurd hr (by simp)
        | cons b pre2 =>
          simp only [List.cons_append, List.cons.injEq] at heq
          obtain ⟨rfl, rfl⟩ := heq
          exact ⟨pre2, r, post, rfl, fun x hx => hpre x (List.mem_cons_of_mem _ hx), hr⟩

/-- A poll whose status string is the Pending one keeps the loop going. -/
theorem waitStep_pending (r : StatusResponse) (h : r.status = Status.pending.toGoString) :
    waitStep r = none := by
  unfold waitStep
  rw [h]
  rw [if_neg (by decide), if_neg (by decide)]

/-- A poll leaves the loop with a nil outcome exactly when its status
string is the Success one. -/
theorem waitStep_eq_success (r : StatusResponse) :
    waitStep r = some none ↔ r.status = Status.success.toGoString := by
  unfold waitStep
  by_cases hf : r.status = Status.failed.toGoString
  · rw [if_pos hf, hf]
    constructor
    · intro h; exact absurd h (by simp)
    · intro h; exact absurd h (by decide)
  · rw [if_neg hf]
    by_cases hs : r.status = Status.success.toGoString
    · simp [hs]
    · simp [hs]

/-- A poll leaves the loop with an error exactly when its status string is
the Failed one, and the error embeds the last message. -/
theorem waitStep_eq_failed (r : StatusResponse) (e : ErrMsg) :
    waitStep r = some (some e) ↔
      r.status = Status.failed.toGoString ∧ e = "job failed: " ++ r.message := by
  unfold waitStep
  by_cases hf : r.status = Status.failed.toGoString
  · rw [if_pos hf]
    constructor
    · intro h
      simp only [Option.some.injEq] at h
      exact ⟨hf, h.symm⟩
    · rintro ⟨-, rfl⟩; rfl
  · rw [if_neg hf]
    by_cases hs : r.status = Status.success.toGoString
    · rw [if_pos hs]
      constructor
      · intro h
        exact absurd h (by simp)
      · rintro ⟨h1, -⟩
        exact absurd h1 hf
    · rw [if_neg hs]
      constructor
      · intro h
        exact absurd h (by simp)
      · rintro ⟨h1, -⟩
        exact absurd h1 hf

/-- C6: over any trace of successful repository reads, WaitForJob returns
nil exactly when the first status to leave the polling loop is Success,
returns the error embedding the last log message exactly when the first
such status is Failed, and does not return at all while every polled
status remains Pending. -/
theorem waitForJob_spec (trace : List StatusResponse) :
    ((∀ r ∈ trace, r.status = Status.pending.toGoString) →
      WaitForJob (trace.map Except.ok) = none) ∧
    (WaitForJob (trace.map Except.ok) = some none ↔
      ∃ pre r post, trace = pre ++ r :: post ∧ (∀ x ∈ pre, waitStep x = none) ∧
        r.status = Status.success.toGoString) ∧
    (∀ e : ErrMsg, WaitForJob (trace.map Except.ok) = some (some e) ↔
      ∃ pre r post, trace = pre ++ r :: post ∧ (∀ x ∈ pre, waitStep x = none) ∧
        r.status = Status.failed.toGoString ∧ e = "job failed: " ++ r.message) := by
  refine ⟨?_, ?_, ?_⟩
  · intro hall
    cases hw : WaitForJob (trace.map Except.ok) with
    | none => rfl
    | some out =>
      obtain ⟨pre, r, post, heq, -, hr⟩ := (waitForJob_map_ok_some trace out).mp hw
      have hrp : r.status = Status.pending.toGoString :=
        hall r (by rw [heq]; exact List.mem_append_right _ (List.mem_cons_self _ _))
      rw [waitStep_pending r hrp] at hr
      exact absurd hr (by simp)
  · rw [waitForJob_map_ok_some]
    constructor
    · rintro ⟨pre, r, post, heq, hpre, hr⟩
      exact ⟨pre, r, post, heq, hpre, (waitStep_eq_success r).mp hr⟩
    · rintro ⟨pre, r, post, heq, hpre, hr⟩
      exact ⟨pre, r, post, heq, hpre, (waitStep_eq_success r).mpr hr⟩
  · intro e
    rw [waitForJob_map_ok_some]
    constructor
    · rintro ⟨pre, r, post, heq, hpre, hr⟩
      obtain ⟨h1, h2⟩ := (waitStep_eq_failed r e).mp hr
      exact ⟨pre, r, post, heq, hpre, h1, h2⟩
    · rintro ⟨pre, r, post, heq, hpre, h1, h2⟩
      exact ⟨pre, r, post, heq, hpre, (waitStep_eq_failed r e).mpr ⟨h1, h2⟩⟩

/-- A concrete sample instant used by the witness theorems. -/
def sampleTime : GoTime := { instant := 5, loc := .localZone }

/-- A concrete freshly created job used by the witness theorems. -/
def sampleJob : Job := NewJob "0xacc" "anchor document" 7 sampleTime

/-- The sample job after the cancellation log entry is appended. -/
def cancelledSample : Job :=
  { sampleJob with logs := sampleJob.logs ++
      [NewLog "context closed"
        ("Job " ++ jobIDString sampleJob.id ++ " for account " ++ sampleJob.did ++
         " with description \"" ++ sampleJob.description ++
         "\" is stopped because of context close") sampleTime] }

/-- A concrete Pending status response. -/
def respPending : StatusResponse :=
  { jobID := "7", status := Status.pending.toGoString, message := "", lastUpdated := sampleTime }

/-- A concrete Success status response. -/
def respSuccess : StatusResponse :=
  { jobID := "7", status := Status.success.toGoString, message := "", lastUpdated := sampleTime }

/-- A queue server on which Start has not yet constructed the broker. -/
def qsEmpty : QueueServerState := { queueInitialised := false, taskTypes := [] }

/-- Witness for C4: an attempted write to an already full done channel is
detected and logged, leaving the channel unchanged. -/
theorem doneChannel_at_most_one_witness :
    Chan.trySend { cap := 1, buf := [none] } none = ({ cap := 1, buf := [none] }, true) :=
  (doneChannel_at_most_one sampleJob 0 "0xacc" "anchor document" sampleTime
    (.workDone none) (.ok sampleJob) none none).2.2.2.2 { cap := 1, buf := [none] } none
    (by decide)

/-- Witness for C5: a concrete new job finalized with a nil work error gets
a notification carrying its final Success status, for a failing sender. -/
theorem notification_policy_witness :
    (finalizeGoroutine sampleJob 0 "0xacc" "anchor document" sampleTime
      (.workDone none) (.ok sampleJob) none (some "boom")).notification =
      some (buildNotification { sampleJob with status := Status.success } "0xacc" sampleTime) :=
  (notification_policy sampleJob 0 "0xacc" "anchor document" sampleTime
    (.workDone none) (.ok sampleJob) none (some "boom") none).2.1
    { sampleJob with status := Status.success } (by rfl) (by rfl)

/-- Witness for C6: a concrete trace that polls once through Pending and
then reads Success makes WaitForJob return nil. -/
theorem waitForJob_spec_witness :
    WaitForJob ([respPending, respSuccess].map Except.ok) = some none :=
  ((waitForJob_spec [respPending, respSuccess]).2.1).mpr
    ⟨[respPending], respSuccess, [], rfl, by decide, rfl⟩

/-- Witness for C7: the sample job has no logs, so its status response has
an empty message and its creation time in UTC. -/
theorem getJobStatus_spec_witness :
    (GetJobStatusJob sampleJob).message = "" ∧
    (GetJobStatusJob sampleJob).lastUpdated = sampleJob.createdAt.toUTC :=
  (getJobStatus_spec sampleJob).2.1 rfl

/-- Witness for C8: enqueuing on the uninitialised sample server fails with
the queue-not-initialised error. -/
theorem enqueueJob_spec_witness :
    EnqueueJob qsEmpty sampleTime 30 "ping" [] = .error "queue hasn\x27t been initialised" :=
  (enqueueJob_spec qsEmpty sampleTime 30 "ping" []).1 rfl

/-- Witness for C9: the record persisted by the cancellation branch for the
sample job extends the reloaded logs. -/
theorem updateTaskStatus_spec_witness :
    sampleJob.logs <+: cancelledSample.logs :=
  (updateTaskStatus_spec sampleJob .success "t" "m" sampleTime "k" [] []).2.2.2.2
    sampleJob 0 "d" sampleTime .ctxCancelled sampleJob none cancelledSample (by rfl)
